import Mathlib

/-!
# Verification of the wide-to-long transform pipeline

Shallow embedding of the "Run Transform" handler of `app.py` (lines 193-254)
together with the pandas primitives it calls:

* `DataFrame.copy`            — modelled by an explicit heap of table objects,
                                allocation of a fresh object;
* `pd.api.types.is_string_dtype` — pandas >= 2.0 semantics: an object column
                                counts as string dtype only when **all** its
                                elements are strings (missing values are *not*
                                skipped, `is_string_array(..., skipna=False)`),
                                so a column containing a null is not string
                                dtype;
* `Series.astype(str).str.strip` — `astype(str)` renders every cell as its
                                string form (notably `NaN` becomes the string
                                `"nan"`), then leading/trailing whitespace is
                                stripped;
* `pd.melt`                   — pandas >= 2.0 semantics: first the check that
                                `value_name` does not collide with a frame
                                column (`ValueError`), then the check that all
                                of `id_vars`/`value_vars` are present
                                (`KeyError`), then the column selection
                                `frame.iloc[:, unique(indexer(id_vars +
                                value_vars))]`, which de-duplicates labels
                                keeping first occurrences, so a `value_vars`
                                entry equal to the id column is silently
                                dropped; the melted block is emitted in
                                column-major order (`ravel("F")`): for each
                                value column in order, all source rows in
                                order;
* `DataFrame.dropna(subset=[value_name])` — removes exactly the rows whose
                                value cell is the missing marker;
* `pd.Categorical(..., categories=list(work[id].drop_duplicates()), ordered=True)`
  and `sort_values([id_col, var_name])` — a stable lexicographic sort by
  (first-occurrence rank of the id value, variable name); pandas multi-key
  `sort_values` uses `lexsort`, which is stable.

Tables are column-oriented lists of named columns of scalar values.
-/

set_option maxHeartbeats 1000000

/-- A scalar cell value of a table: a string, a number, a boolean, or the
missing marker (pandas `NaN` / `None`). -/
inductive Value where
  | str (s : String)
  | num (n : Int)
  | bool (b : Bool)
  | null
deriving DecidableEq, Repr

/-- `True` exactly on string cells. -/
def Value.isStr : Value → Bool
  | .str _ => true
  | _ => false

/-- The pandas missing-value test (`isna`): only the missing marker counts;
numeric `0`, the empty string and boolean `False` are not missing. -/
def Value.isNA : Value → Bool
  | .null => true
  | _ => false

/-- A table: an ordered sequence of named columns of scalar values
(a pandas `DataFrame`). -/
structure Table where
  cols : List (String × List Value)
deriving DecidableEq, Repr

/-- The column names of a table, in order (`df.columns`). -/
def Table.colNames (t : Table) : List String := t.cols.map Prod.fst

/-- The values of the column named `c` (`df[c]`); the first column with that
name, `[]` when absent. -/
def Table.get (t : Table) (c : String) : List Value :=
  match t.cols.find? (fun p => p.1 == c) with
  | some p => p.2
  | none => []

/-- The transform configuration assembled by the handler's widgets, with the
field names of the corresponding locals in `app.py`. -/
structure Config where
  id_col : String
  value_cols : List String
  var_name : String
  value_name : String
  dropna : Bool
  strip_ws : Bool
  keep_order : Bool
deriving DecidableEq, Repr

/-- `Series.astype(str)` on one cell: its pandas string rendering; the missing
marker `NaN` renders as the string `"nan"`. -/
def astype_str : Value → String
  | .str s => s
  | .num n => toString n
  | .bool b => if b then "True" else "False"
  | .null => "nan"

/-- `pd.api.types.is_string_dtype` on an object column, pandas >= 2.0: all
elements must be strings; a null element disqualifies the column
(`is_string_array` is called with `skipna=False`). -/
def is_string_dtype (col : List Value) : Bool :=
  col.all Value.isStr

/-- Python's `str.strip()`: drop leading and trailing whitespace characters. -/
def pyStrip (s : String) : String :=
  ⟨((s.data.dropWhile Char.isWhitespace).reverse.dropWhile Char.isWhitespace).reverse⟩

/-- `work[c].astype(str).str.strip()` on a whole column. -/
def stripCol (col : List Value) : List Value :=
  col.map (fun v => .str (pyStrip (astype_str v)))

/-- The `strip_ws` loop of the handler: every string-dtype column is replaced
by its stripped form, all other columns stay as they are. -/
def strip_ws_table (t : Table) : Table :=
  ⟨t.cols.map (fun p => if is_string_dtype p.2 then (p.1, stripCol p.2) else p)⟩

/-- First-occurrence de-duplication keeping order, with an accumulator of the
names already seen (`algos.unique` on the label indexer / `drop_duplicates`). -/
def dedupFirst {α : Type} [DecidableEq α] (seen : List α) : List α → List α
  | [] => []
  | a :: l => if a ∈ seen then dedupFirst seen l else a :: dedupFirst (a :: seen) l

/-- `Series.drop_duplicates()`: first occurrences of the values, in order. -/
def dropDuplicates (col : List Value) : List Value := dedupFirst [] col

/-- One output row of the melted frame: id value, variable name, value. -/
structure Row3 where
  idv : Value
  varv : String
  valv : Value
deriving DecidableEq, Repr

/-- The melted frame: the three output column names and the output rows. -/
structure MeltResult where
  idName : String
  varName : String
  valName : String
  rows : List Row3
deriving DecidableEq, Repr

/-- The row view of the melted frame for value columns `vcs` when the three
output names are pairwise distinct: column-major (`ravel("F")`) — for each
value column in order, one row per source row in order. -/
def meltRows (frame : Table) (id_col : String) (vcs : List String) : List Row3 :=
  vcs.flatMap (fun vc =>
    ((frame.get id_col).zip (frame.get vc)).map (fun p => ⟨p.1, vc, p.2⟩))

/-- `np.tile(id_data._values, K)`: the id column repeated once per melted
value column. -/
def tiledIds (frame : Table) (id_col : String) (vcs : List String) : List Value :=
  vcs.flatMap (fun _ => frame.get id_col)

/-- `frame._values.ravel("F")`: the melted value columns concatenated
column-major. -/
def ravelF (frame : Table) (vcs : List String) : List Value :=
  vcs.flatMap (fun vc => frame.get vc)

/-- `frame.columns.repeat(N)`: each melted column's label repeated once per
source row. -/
def labelsRep (frame : Table) (id_col : String) (vcs : List String) : List String :=
  vcs.flatMap (fun vc => List.replicate (frame.get id_col).length vc)

/-- Write into pandas' name-keyed `mdata` dict: a later write to an existing
key overwrites its data in place, a fresh key is appended. -/
def dictInsert (d : List (String × List Value)) (k : String) (v : List Value) :
    List (String × List Value) :=
  if d.any (fun p => p.1 == k) then d.map (fun p => if p.1 == k then (k, v) else p)
  else d ++ [(k, v)]

/-- Look a key up in the `mdata` dict. -/
def dictGet (d : List (String × List Value)) (k : String) : List Value :=
  match d.find? (fun p => p.1 == k) with
  | some p => p.2
  | none => []

/-- Pandas melt's `mdata` dict after its three writes, in source order:
`mdata[col]` for the id var first, then `mdata[value_name]`, then
`mdata[var_name]` — so `var_name` equal to `id_col` or to `value_name`
overwrites the id or the value data with the variable labels. -/
def meltMData (frame : Table) (id_col : String) (vcs : List String)
    (var_name value_name : String) : List (String × List Value) :=
  dictInsert (dictInsert (dictInsert []
      id_col (tiledIds frame id_col vcs))
    value_name (ravelF frame vcs))
    var_name ((labelsRep frame id_col vcs).map Value.str)

/-- Zip the three projected output columns into rows. -/
def buildRows (ids : List Value) (labels : List String) (vals : List Value) : List Row3 :=
  (ids.zip (labels.zip vals)).map (fun p => ⟨p.1, p.2.1, p.2.2⟩)

/-- `pd.melt(frame, id_vars=[id_col], value_vars=value_cols, var_name, value_name)`,
pandas >= 2.0: the `value_name`-collision check raises `ValueError`; a missing
`id_vars`/`value_vars` label raises `KeyError`; otherwise the selected labels
are de-duplicated keeping first occurrences (an entry equal to `id_col` is
dropped) and the frame is assembled from the name-keyed `mdata` dict with
`mcolumns = [id_col, var_name, value_name]`: the id column is
`mdata[id_col]` (the variable labels, not the ids, when `var_name = id_col`),
the variable column is `mdata[var_name]` (always the labels, the last write),
and the value column is `mdata[value_name]` (the labels when
`var_name = value_name`). -/
def melt (frame : Table) (id_col : String) (value_cols : List String)
    (var_name : String) (value_name : String) : Except String MeltResult :=
  if frame.colNames.contains value_name then
    .error ("value_name (" ++ value_name ++ ") cannot match an element in the DataFrame columns.")
  else if (id_col :: value_cols).all (fun l => frame.colNames.contains l) then
    .ok ⟨id_col, var_name, value_name,
      buildRows
        (dictGet (meltMData frame id_col (dedupFirst [id_col] value_cols)
          var_name value_name) id_col)
        (labelsRep frame id_col (dedupFirst [id_col] value_cols))
        (dictGet (meltMData frame id_col (dedupFirst [id_col] value_cols)
          var_name value_name) value_name)⟩
  else
    .error "The following id_vars or value_vars are not present in the DataFrame"

/-- Code-point lexicographic strict comparison of character lists: the order
Python (and hence pandas `sort_values` on a string column) uses on strings. -/
def varLtB : List Char → List Char → Bool
  | _, [] => false
  | [], _ :: _ => true
  | c1 :: t1, c2 :: t2 =>
    Nat.blt c1.toNat c2.toNat || (c1.toNat == c2.toNat && varLtB t1 t2)

/-- Code-point lexicographic strict comparison of strings. -/
def strLtB (s1 s2 : String) : Bool := varLtB s1.data s2.data

/-- The sort key order of `sort_values([id_col, var_name])` after the id
column is made `pd.Categorical` with categories `cats` (first-occurrence order
of the work table's id column): primarily the categorical code (the index in
`cats`), secondarily the variable name, lexicographically (`r` comes no later
than `s` when `s`'s variable name is not lexicographically smaller). -/
def rowLe (cats : List Value) (r s : Row3) : Prop :=
  cats.indexOf r.idv < cats.indexOf s.idv ∨
    (cats.indexOf r.idv = cats.indexOf s.idv ∧ strLtB s.varv r.varv = false)

instance rowLe.instDecidable (cats : List Value) : DecidableRel (rowLe cats) := fun r s =>
  inferInstanceAs (Decidable (cats.indexOf r.idv < cats.indexOf s.idv ∨
    (cats.indexOf r.idv = cats.indexOf s.idv ∧ strLtB s.varv r.varv = false)))

/-- `sort_values([id_col, var_name])`: a stable sort by `rowLe` (pandas
multi-key sorting uses the stable `lexsort`; `List.insertionSort` with a total
preorder is stable). -/
def sortRows (cats : List Value) (rows : List Row3) : List Row3 :=
  List.insertionSort (rowLe cats) rows

/-- What the handler reports back for one run: the warning of the empty
`value_cols` guard, the message of the `except` branch, or the melted frame. -/
inductive TransformOutcome where
  | warn (msg : String)
  | error (msg : String)
  | ok (m : MeltResult)
deriving DecidableEq, Repr

/-- The keep-ID-order block (`app.py` 212-220) on the already NA-filtered
melted frame, with its exception paths, in the order pandas raises them:
`pd.Categorical(melted[id_col], categories=list(work[id_col].drop_duplicates()),
ordered=True)` first validates the categories — a missing value in the work
table's id column survives `drop_duplicates`, so the categories contain a
null and `ValueError("Categorical categories cannot be null")` is raised;
then, when `var_name = id_col`, `melted[id_col]` selects the duplicated label
pair (a two-column frame) and `Categorical` raises
`ValueError("Data must be 1-dimensional")`; then, when
`var_name = value_name`, `sort_values([id_col, var_name])` hits the
duplicated label and raises; only otherwise is the frame sorted. -/
def keepOrderStep (work : Table) (cfg : Config) (m1 : MeltResult) : TransformOutcome :=
  if (dropDuplicates (work.get cfg.id_col)).contains Value.null then
    .error ("Transform error: " ++ "Categorical categories cannot be null")
  else if cfg.var_name == cfg.id_col then
    .error ("Transform error: " ++ "Data must be 1-dimensional")
  else if cfg.var_name == cfg.value_name then
    .error ("Transform error: " ++ "The column label is not unique")
  else
    .ok { m1 with rows := sortRows (dropDuplicates (work.get cfg.id_col)) m1.rows }

/-- The body of the `try:` block of the handler, applied to the (possibly
stripped) work table: melt, then `dropna(subset=[value_name])`, then the
keep-ID-order block as configured; every exception becomes the
`"Transform error: "` message. -/
def meltSteps (work : Table) (cfg : Config) : TransformOutcome :=
  match melt work cfg.id_col cfg.value_cols cfg.var_name cfg.value_name with
  | .error e => .error ("Transform error: " ++ e)
  | .ok m =>
    let m1 := if cfg.dropna then { m with rows := m.rows.filter (fun r => !(r.valv.isNA)) } else m
    if cfg.keep_order then keepOrderStep work cfg m1 else .ok m1

/-- A heap of table objects; the address of an object is its index.  Python
variables such as `df` and `work` hold addresses, so that `df.copy()` versus
aliasing is observable. -/
structure Heap where
  objs : List Table
deriving DecidableEq, Repr

/-- Dereference an address. -/
def Heap.read (h : Heap) (a : Nat) : Table := h.objs.getD a ⟨[]⟩

/-- Overwrite the object at an address. -/
def Heap.write (h : Heap) (a : Nat) (t : Table) : Heap := ⟨h.objs.set a t⟩

/-- Allocate a fresh object, returning the new heap and the fresh address. -/
def Heap.alloc (h : Heap) (t : Table) : Heap × Nat := (⟨h.objs ++ [t]⟩, h.objs.length)

/-- The "Run Transform" handler (`app.py` 193-254) over the heap: `dfAddr` is
the address the variable `df` holds.  `work = df.copy()` allocates a fresh
object holding a copy of `df`'s table; the strip loop writes only through the
`work` reference; then the empty-`value_cols` guard, then the `try:` block. -/
def execHandler (h : Heap) (dfAddr : Nat) (cfg : Config) : Heap × TransformOutcome :=
  let h1w := h.alloc (h.read dfAddr)
  let h1 := h1w.1
  let workAddr := h1w.2
  let h2 := if cfg.strip_ws then h1.write workAddr (strip_ws_table (h1.read workAddr)) else h1
  if cfg.value_cols = [] then
    (h2, .warn "Pick at least one column to unpivot.")
  else
    (h2, meltSteps (h2.read workAddr) cfg)

/-- The work table the pipeline operates on: the copy of `df`, stripped when
`strip_ws` is set. -/
def workOf (df : Table) (cfg : Config) : Table :=
  if cfg.strip_ws then strip_ws_table df else df

/-- The transform as a pure function of the caller's table: the value-level
result of one handler run. -/
def runTransform (df : Table) (cfg : Config) : TransformOutcome :=
  if cfg.value_cols = [] then .warn "Pick at least one column to unpivot."
  else meltSteps (workOf df cfg) cfg

/-! ## Stage views of the pipeline

Named views of the intermediate values of a successful run, used to state the
claims; `runTransform_valid` below proves that a valid run produces exactly
these stages. -/

/-- The melted rows of a run whose configured value columns survive the
de-duplication unchanged. -/
def melted (df : Table) (cfg : Config) : List Row3 :=
  meltRows (workOf df cfg) cfg.id_col cfg.value_cols

/-- The rows after the optional `dropna`. -/
def afterNA (df : Table) (cfg : Config) : List Row3 :=
  if cfg.dropna then (melted df cfg).filter (fun r => !(r.valv.isNA)) else melted df cfg

/-- The categories of the keep-ID-order sort: the id values of the work table
in first-occurrence order. -/
def idCats (df : Table) (cfg : Config) : List Value :=
  dropDuplicates ((workOf df cfg).get cfg.id_col)

/-- The rows of the returned result. -/
def finalRows (df : Table) (cfg : Config) : List Row3 :=
  if cfg.keep_order then sortRows (idCats df cfg) (afterNA df cfg) else afterNA df cfg

/-- The number of melted rows the `dropna` step removes (zero when `dropna`
is off). -/
def droppedNACount (df : Table) (cfg : Config) : Nat :=
  if cfg.dropna then (melted df cfg).countP (fun r => r.valv.isNA) else 0

/-- The validity conditions of the specification's step 1 (id column present,
value columns a non-empty duplicate-free selection of other present columns)
together with the output value-column name not colliding with a source column
(the condition under which `pd.melt` does not raise). -/
def Config.Valid (cfg : Config) (t : Table) : Prop :=
  cfg.id_col ∈ t.colNames ∧
  cfg.value_cols ≠ [] ∧
  cfg.value_cols.Nodup ∧
  (∀ c ∈ cfg.value_cols, c ≠ cfg.id_col ∧ c ∈ t.colNames) ∧
  cfg.value_name ∉ t.colNames

instance Config.Valid.instDecidable (cfg : Config) (t : Table) : Decidable (cfg.Valid t) := by
  unfold Config.Valid; infer_instance

/-! ## Basic lemmas -/

theorem strip_ws_table_colNames (t : Table) : (strip_ws_table t).colNames = t.colNames := by
  unfold strip_ws_table Table.colNames
  simp only [List.map_map]
  apply List.map_congr_left
  intro p hp
  by_cases h : is_string_dtype p.2 <;> simp [h]

theorem workOf_colNames (df : Table) (cfg : Config) :
    (workOf df cfg).colNames = df.colNames := by
  unfold workOf
  by_cases h : cfg.strip_ws <;> simp [h, strip_ws_table_colNames]

theorem Table.get_length (t : Table) (n : Nat) (hwf : ∀ p ∈ t.cols, p.2.length = n)
    (c : String) (hc : c ∈ t.colNames) : (t.get c).length = n := by
  unfold Table.get
  cases hfind : t.cols.find? (fun p => p.1 == c) with
  | none =>
    exfalso
    rw [List.find?_eq_none] at hfind
    unfold Table.colNames at hc
    obtain ⟨p, hp, hpc⟩ := List.mem_map.mp hc
    exact hfind p hp (by simp [hpc])
  | some p => exact hwf p (List.mem_of_find?_eq_some hfind)

theorem Table.get_eq_nil (t : Table) (hempty : ∀ p ∈ t.cols, p.2 = []) (c : String) :
    t.get c = [] := by
  unfold Table.get
  cases hfind : t.cols.find? (fun p => p.1 == c) with
  | none => rfl
  | some p => exact hempty p (List.mem_of_find?_eq_some hfind)

theorem strip_ws_table_wf (t : Table) (n : Nat) (hwf : ∀ p ∈ t.cols, p.2.length = n) :
    ∀ p ∈ (strip_ws_table t).cols, p.2.length = n := by
  intro p hp
  unfold strip_ws_table at hp
  simp only [List.mem_map] at hp
  obtain ⟨q, hq, rfl⟩ := hp
  by_cases h : is_string_dtype q.2 <;> simp [h, stripCol, hwf q hq]

theorem workOf_wf (df : Table) (cfg : Config) (n : Nat)
    (hwf : ∀ p ∈ df.cols, p.2.length = n) :
    ∀ p ∈ (workOf df cfg).cols, p.2.length = n := by
  unfold workOf
  by_cases h : cfg.strip_ws <;> simp only [h, if_true, if_false]
  · exact strip_ws_table_wf df n hwf
  · exact hwf

theorem dedupFirst_eq_self {α : Type} [DecidableEq α] (seen : List α) (l : List α)
    (hdisj : ∀ a ∈ l, a ∉ seen) (hnd : l.Nodup) : dedupFirst seen l = l := by
  induction l generalizing seen with
  | nil => rfl
  | cons a t ih =>
    obtain ⟨hat, hndt⟩ := List.nodup_cons.mp hnd
    unfold dedupFirst
    rw [if_neg (hdisj a (List.mem_cons_self a t))]
    congr 1
    apply ih
    · intro b hb
      simp only [List.mem_cons, not_or]
      exact ⟨fun hba => hat (hba ▸ hb), hdisj b (List.mem_cons_of_mem a hb)⟩
    · exact hndt

theorem contains_eq_false_of_not_mem {α : Type} [BEq α] [LawfulBEq α]
    {l : List α} {a : α} (h : a ∉ l) : l.contains a = false := by
  rw [Bool.eq_false_iff]
  intro hcon
  exact h (List.elem_iff.mp hcon)

theorem mem_of_mem_dedupFirst {α : Type} [DecidableEq α] (seen l : List α) (a : α)
    (h : a ∈ dedupFirst seen l) : a ∈ l := by
  induction l generalizing seen with
  | nil => cases h
  | cons c t ih =>
    unfold dedupFirst at h
    by_cases hc : c ∈ seen
    · rw [if_pos hc] at h
      exact List.mem_cons_of_mem c (ih seen h)
    · rw [if_neg hc] at h
      rcases List.mem_cons.mp h with rfl | h2
      · exact List.mem_cons_self _ _
      · exact List.mem_cons_of_mem c (ih (c :: seen) h2)

theorem buildRows_append (a1 a2 : List Value) (b1 b2 : List String) (c1 c2 : List Value)
    (h1 : a1.length = (b1.zip c1).length) (h2 : b1.length = c1.length) :
    buildRows (a1 ++ a2) (b1 ++ b2) (c1 ++ c2) = buildRows a1 b1 c1 ++ buildRows a2 b2 c2 := by
  unfold buildRows
  rw [List.zip_append h2, List.zip_append h1, List.map_append]

theorem buildRows_block (c : String) : ∀ (ids vals : List Value) (k : Nat),
    ids.length ≤ k →
    buildRows ids (List.replicate k c) vals
      = (ids.zip vals).map (fun p => (⟨p.1, c, p.2⟩ : Row3)) := by
  intro ids
  induction ids with
  | nil => intro vals k _; rfl
  | cons x xs ih =>
    intro vals k hk
    cases vals with
    | nil => simp [buildRows]
    | cons y ys =>
      cases k with
      | zero => simp at hk
      | succ m =>
        simp only [buildRows, List.replicate_succ, List.zip_cons_cons, List.map_cons,
          List.cons.injEq]
        exact ⟨trivial, ih ys m (Nat.le_of_succ_le_succ hk)⟩

/-- With all columns of the work table equally long, the dict-assembled melt
output coincides with the clean column-major row view. -/
theorem buildRows_eq_meltRows (frame : Table) (id_col : String) (n : Nat)
    (hid : (frame.get id_col).length = n) :
    ∀ (vcs : List String), (∀ c ∈ vcs, (frame.get c).length = n) →
    buildRows (tiledIds frame id_col vcs) (labelsRep frame id_col vcs) (ravelF frame vcs)
      = meltRows frame id_col vcs := by
  intro vcs
  induction vcs with
  | nil => intro _; rfl
  | cons c t ih =>
    intro hvc
    have hc : (frame.get c).length = n := hvc c (List.mem_cons_self c t)
    unfold tiledIds labelsRep ravelF meltRows
    rw [List.flatMap_cons, List.flatMap_cons, List.flatMap_cons, List.flatMap_cons]
    rw [buildRows_append _ _ _ _ _ _
      (by simp [List.length_zip, hid, hc]) (by simp [hid, hc])]
    congr 1
    · exact buildRows_block c _ _ _ (by simp [hid])
    · exact ih (fun d hd => hvc d (List.mem_cons_of_mem c hd))

/-- When the three output names are pairwise distinct, no dict write
overwrites another: the id and value columns read back untouched. -/
theorem meltMData_get_fresh (frame : Table) (id_col : String) (vcs : List String)
    (var_name value_name : String) (h1 : value_name ≠ id_col)
    (h2 : var_name ≠ id_col) (h3 : var_name ≠ value_name) :
    dictGet (meltMData frame id_col vcs var_name value_name) id_col
        = tiledIds frame id_col vcs ∧
    dictGet (meltMData frame id_col vcs var_name value_name) value_name
        = ravelF frame vcs := by
  have hb1 : (id_col == value_name) = false := beq_eq_false_iff_ne.mpr (Ne.symm h1)
  have hb2 : (id_col == var_name) = false := beq_eq_false_iff_ne.mpr (Ne.symm h2)
  have hb3 : (value_name == var_name) = false := beq_eq_false_iff_ne.mpr (Ne.symm h3)
  have hb4 : (value_name == id_col) = false := beq_eq_false_iff_ne.mpr h1
  constructor <;>
    simp [meltMData, dictInsert, dictGet, hb1, hb2, hb3, hb4]

/-- The master unfolding lemma: a run that is valid, has pairwise-distinct
output column names, and — when the keep-ID-order sort is on — no missing
value in the work table's id column, reaches the `ok` branch with the staged
rows under the configured output column names. -/
theorem runTransform_valid (df : Table) (cfg : Config) (n : Nat)
    (hwf : ∀ p ∈ df.cols, p.2.length = n) (hv : cfg.Valid df)
    (hvar1 : cfg.var_name ≠ cfg.id_col) (hvar2 : cfg.var_name ≠ cfg.value_name)
    (hnull : cfg.keep_order = true → Value.null ∉ (workOf df cfg).get cfg.id_col) :
    runTransform df cfg =
      TransformOutcome.ok ⟨cfg.id_col, cfg.var_name, cfg.value_name, finalRows df cfg⟩ := by
  obtain ⟨hid, hne, hnd, hvc, hvn⟩ := hv
  have hnames := workOf_colNames df cfg
  have h1 : ((workOf df cfg).colNames.contains cfg.value_name) = false := by
    rw [hnames]; exact contains_eq_false_of_not_mem hvn
  have h2 : ((cfg.id_col :: cfg.value_cols).all
      (fun l => (workOf df cfg).colNames.contains l)) = true := by
    rw [List.all_eq_true]
    intro c hc
    rw [hnames]
    rcases List.mem_cons.mp hc with rfl | hc2
    · exact List.elem_iff.mpr hid
    · exact List.elem_iff.mpr (hvc c hc2).2
  have h3 : dedupFirst [cfg.id_col] cfg.value_cols = cfg.value_cols := by
    apply dedupFirst_eq_self
    · intro c hc
      simp only [List.mem_singleton]
      exact (hvc c hc).1
    · exact hnd
  have hvid : cfg.value_name ≠ cfg.id_col := fun h => hvn (h ▸ hid)
  have hwwf := workOf_wf df cfg n hwf
  have hidlen : ((workOf df cfg).get cfg.id_col).length = n :=
    Table.get_length _ n hwwf _ (hnames ▸ hid)
  have hvclen : ∀ c ∈ cfg.value_cols, ((workOf df cfg).get c).length = n :=
    fun c hc => Table.get_length _ n hwwf _ (hnames ▸ (hvc c hc).2)
  have hdict := meltMData_get_fresh (workOf df cfg) cfg.id_col cfg.value_cols
    cfg.var_name cfg.value_name hvid hvar1 hvar2
  have hbridge := buildRows_eq_meltRows (workOf df cfg) cfg.id_col n hidlen
    cfg.value_cols hvclen
  unfold runTransform meltSteps melt
  rw [if_neg hne, h1, if_neg (by simp), h2, if_pos rfl, h3, hdict.1, hdict.2, hbridge]
  cases hk : cfg.keep_order with
  | false =>
    unfold finalRows afterNA melted
    by_cases hd : cfg.dropna <;> simp [hd, hk]
  | true =>
    have hcats : ((dropDuplicates ((workOf df cfg).get cfg.id_col)).contains Value.null)
        = false :=
      contains_eq_false_of_not_mem
        (fun hmem => (hnull hk) (mem_of_mem_dedupFirst _ _ _ hmem))
    have hbv1 : (cfg.var_name == cfg.id_col) = false := beq_eq_false_iff_ne.mpr hvar1
    have hbv2 : (cfg.var_name == cfg.value_name) = false := beq_eq_false_iff_ne.mpr hvar2
    unfold keepOrderStep
    rw [hcats, hbv1, hbv2]
    unfold finalRows afterNA melted idCats sortRows
    by_cases hd : cfg.dropna <;> simp [hd, hk]

theorem meltRows_length (frame : Table) (id_col : String) (vcs : List String) (n : Nat)
    (hid : (frame.get id_col).length = n) (hvc : ∀ c ∈ vcs, (frame.get c).length = n) :
    (meltRows frame id_col vcs).length = vcs.length * n := by
  induction vcs with
  | nil => simp [meltRows]
  | cons c t ih =>
    unfold meltRows
    rw [List.flatMap_cons]
    rw [List.length_append, List.length_map, List.length_zip, hid,
      hvc c (List.mem_cons_self c t), Nat.min_self]
    have ht := ih (fun d hd => hvc d (List.mem_cons_of_mem c hd))
    unfold meltRows at ht
    rw [ht]
    simp [Nat.succ_mul, Nat.add_comm]

theorem length_filter_not {α : Type} (p : α → Bool) (l : List α) :
    (l.filter (fun a => !(p a))).length = l.length - l.countP p := by
  induction l with
  | nil => rfl
  | cons a t ih =>
    have hle := List.countP_le_length (p := p) (l := t)
    cases h : p a <;> simp [List.filter_cons, List.countP_cons, h, ih] <;> omega

theorem finalRows_length (df : Table) (cfg : Config) :
    (finalRows df cfg).length = (afterNA df cfg).length := by
  unfold finalRows sortRows
  by_cases hk : cfg.keep_order <;> simp [hk, List.length_insertionSort]

theorem afterNA_length (df : Table) (cfg : Config) :
    (afterNA df cfg).length = (melted df cfg).length - droppedNACount df cfg := by
  unfold afterNA droppedNACount
  by_cases hd : cfg.dropna <;> simp [hd, length_filter_not]

/-- **C1** (corrected; the amended claim).  Whenever the transform produces a
Result — which requires, beyond the validity of the column selection, that
the output column names are pairwise fresh and that (when the keep-ID-order
sort is on) the work table's id column has no missing value, since otherwise
`pd.Categorical` raises and no Result exists — the number of rows of the
Result equals `n` times the number of configured value columns, minus the
number of output rows removed by NA dropping (which is zero when `dropna` is
off, and never exceeds the total). -/
theorem C1_row_count (df : Table) (cfg : Config) (n : Nat)
    (hwf : ∀ p ∈ df.cols, p.2.length = n) (hv : cfg.Valid df)
    (hvar1 : cfg.var_name ≠ cfg.id_col) (hvar2 : cfg.var_name ≠ cfg.value_name)
    (hnull : cfg.keep_order = true → Value.null ∉ (workOf df cfg).get cfg.id_col) :
    ∃ m, runTransform df cfg = TransformOutcome.ok m ∧
      droppedNACount df cfg ≤ n * cfg.value_cols.length ∧
      m.rows.length = n * cfg.value_cols.length - droppedNACount df cfg := by
  obtain ⟨hid, hne, hnd, hvc, hvn⟩ := hv
  have hwwf := workOf_wf df cfg n hwf
  have hnames := workOf_colNames df cfg
  have hidlen : ((workOf df cfg).get cfg.id_col).length = n :=
    Table.get_length _ n hwwf _ (hnames ▸ hid)
  have hvclen : ∀ c ∈ cfg.value_cols, ((workOf df cfg).get c).length = n :=
    fun c hc => Table.get_length _ n hwwf _ (hnames ▸ (hvc c hc).2)
  have hmelt : (melted df cfg).length = cfg.value_cols.length * n :=
    meltRows_length _ _ _ n hidlen hvclen
  have hcount : droppedNACount df cfg ≤ n * cfg.value_cols.length := by
    unfold droppedNACount
    by_cases hd : cfg.dropna <;> simp only [hd, if_true, if_false]
    · calc (melted df cfg).countP (fun r => r.valv.isNA) ≤ (melted df cfg).length :=
          List.countP_le_length _
        _ = n * cfg.value_cols.length := by rw [hmelt, Nat.mul_comm]
    · exact Nat.zero_le _
  refine ⟨_, runTransform_valid df cfg n hwf ⟨hid, hne, hnd, hvc, hvn⟩ hvar1 hvar2 hnull,
    hcount, ?_⟩
  show (finalRows df cfg).length = n * cfg.value_cols.length - droppedNACount df cfg
  rw [finalRows_length, afterNA_length, hmelt, Nat.mul_comm]

/-- Counterexample to C1 as stated: a table with a missing value in the id
column and a configuration that passes the specification's validation, with
the keep-ID-order option on.  The claim asserts the result has
`2 * 1 - 0 = 2` rows, but `drop_duplicates` keeps the missing id value in the
categories and `pd.Categorical` raises, so the app surfaces a transform error
and produces no result at all. -/
theorem C1_counterexample :
    (("data" : String) ∈ (⟨[("data", [Value.str "x", Value.null]),
        ("col1", [Value.num 1, Value.num 2])]⟩ : Table).colNames ∧
      (["col1"] : List String) ≠ [] ∧
      (∀ c ∈ (["col1"] : List String), c ≠ "data" ∧
        c ∈ (⟨[("data", [Value.str "x", Value.null]),
          ("col1", [Value.num 1, Value.num 2])]⟩ : Table).colNames)) ∧
    runTransform ⟨[("data", [Value.str "x", Value.null]),
        ("col1", [Value.num 1, Value.num 2])]⟩
      ⟨"data", ["col1"], "column", "value", true, false, true⟩
      = TransformOutcome.error "Transform error: Categorical categories cannot be null" := by
  decide

/-- Witness for C1: the specification's sample table with one missing cell,
`dropna` on: 3 rows times 2 value columns minus 1 dropped row. -/
theorem C1_row_count_witness :
    ∃ m, runTransform
        ⟨[("data", [Value.str "x", Value.str "y", Value.str "z"]),
          ("col1", [Value.str "px1", Value.str "py1", Value.str "pz1"]),
          ("col2", [Value.str "px2", Value.null, Value.str "pz2"])]⟩
        ⟨"data", ["col1", "col2"], "column", "value", true, false, true⟩
        = TransformOutcome.ok m ∧
      droppedNACount
        ⟨[("data", [Value.str "x", Value.str "y", Value.str "z"]),
          ("col1", [Value.str "px1", Value.str "py1", Value.str "pz1"]),
          ("col2", [Value.str "px2", Value.null, Value.str "pz2"])]⟩
        ⟨"data", ["col1", "col2"], "column", "value", true, false, true⟩
        ≤ 3 * 2 ∧
      m.rows.length = 3 * 2 - droppedNACount
        ⟨[("data", [Value.str "x", Value.str "y", Value.str "z"]),
          ("col1", [Value.str "px1", Value.str "py1", Value.str "pz1"]),
          ("col2", [Value.str "px2", Value.null, Value.str "pz2"])]⟩
        ⟨"data", ["col1", "col2"], "column", "value", true, false, true⟩ :=
  C1_row_count _ _ 3 (by decide) (by decide) (by decide) (by decide) (fun _ => by decide)

/-! ## Heap lemmas and purity -/

theorem Heap.read_alloc_old (h : Heap) (t : Table) (a : Nat) (ha : a < h.objs.length) :
    (h.alloc t).1.read a = h.read a := by
  unfold Heap.alloc Heap.read
  simp [List.getElem?_append_left ha]

theorem Heap.read_alloc_new (h : Heap) (t : Table) :
    (h.alloc t).1.read (h.alloc t).2 = t := by
  unfold Heap.alloc Heap.read
  simp [List.getElem?_concat_length]

theorem Heap.read_write_ne (h : Heap) (b : Nat) (t : Table) (a : Nat) (hab : a ≠ b) :
    (h.write b t).read a = h.read a := by
  unfold Heap.write Heap.read
  simp [List.getElem?_set_ne (Ne.symm hab)]

theorem Heap.read_write_self (h : Heap) (b : Nat) (t : Table) (hb : b < h.objs.length) :
    (h.write b t).read b = t := by
  unfold Heap.write Heap.read
  simp [List.getElem?_set_self, hb]

theorem Heap.alloc_write_read_old (h : Heap) (t u : Table) (a : Nat)
    (ha : a < h.objs.length) :
    ((h.alloc t).1.write (h.alloc t).2 u).read a = h.read a := by
  have hne : a ≠ (h.alloc t).2 := by unfold Heap.alloc; exact Nat.ne_of_lt ha
  rw [Heap.read_write_ne _ _ _ _ hne]
  exact Heap.read_alloc_old h t a ha

theorem Heap.alloc_write_read_new (h : Heap) (t u : Table) :
    ((h.alloc t).1.write (h.alloc t).2 u).read (h.alloc t).2 = u := by
  apply Heap.read_write_self
  unfold Heap.alloc
  simp

/-- The handler run leaves the object `df` points at unchanged and computes
the pure function `runTransform` of it: `work = df.copy()` allocates a fresh
object and the strip loop writes only through `work`. -/
theorem execHandler_spec (h : Heap) (a : Nat) (cfg : Config)
    (ha : a < h.objs.length) :
    (execHandler h a cfg).1.read a = h.read a ∧
    (execHandler h a cfg).2 = runTransform (h.read a) cfg := by
  have hold : (h.alloc (h.read a)).1.read a = h.read a := Heap.read_alloc_old h _ a ha
  have hnew : (h.alloc (h.read a)).1.read (h.alloc (h.read a)).2 = h.read a :=
    Heap.read_alloc_new h (h.read a)
  have hwold := Heap.alloc_write_read_old h (h.read a)
    (strip_ws_table ((h.alloc (h.read a)).1.read (h.alloc (h.read a)).2)) a ha
  have hwnew := Heap.alloc_write_read_new h (h.read a)
    (strip_ws_table ((h.alloc (h.read a)).1.read (h.alloc (h.read a)).2))
  unfold execHandler runTransform workOf
  cases hs : cfg.strip_ws with
  | false =>
    by_cases hvc : cfg.value_cols = [] <;>
      simp only [hs, hvc, Bool.false_eq_true, ite_true, ite_false, reduceIte, if_neg,
        not_false_eq_true]
    · exact ⟨hold, trivial⟩
    · exact ⟨hold, by rw [hnew]⟩
  | true =>
    by_cases hvc : cfg.value_cols = [] <;>
      simp only [hs, hvc, ite_true, ite_false, reduceIte, if_neg, not_false_eq_true]
    · exact ⟨hwold, trivial⟩
    · exact ⟨hwold, by rw [hwnew, hnew]⟩

/-- **C9** (confirmed).  The handler run never writes through the `df`
reference: `work = df.copy()` allocates a fresh object and the strip loop
writes only through `work`, so after the run the caller's table is unchanged
and the outcome is the pure function `runTransform` of the caller's table. -/
theorem C9_pure_no_mutation (h : Heap) (a : Nat) (cfg : Config)
    (ha : a < h.objs.length) :
    (execHandler h a cfg).1.read a = h.read a ∧
    (execHandler h a cfg).2 = runTransform (h.read a) cfg :=
  execHandler_spec h a cfg ha

/-- Witness for C9: one concrete heap holding one table. -/
theorem C9_pure_no_mutation_witness :
    (execHandler ⟨[⟨[("data", [Value.str " x"]), ("col1", [Value.num 3])]⟩]⟩ 0
        ⟨"data", ["col1"], "column", "value", true, true, true⟩).1.read 0
      = Heap.read ⟨[⟨[("data", [Value.str " x"]), ("col1", [Value.num 3])]⟩]⟩ 0 ∧
    (execHandler ⟨[⟨[("data", [Value.str " x"]), ("col1", [Value.num 3])]⟩]⟩ 0
        ⟨"data", ["col1"], "column", "value", true, true, true⟩).2
      = runTransform (Heap.read ⟨[⟨[("data", [Value.str " x"]), ("col1", [Value.num 3])]⟩]⟩ 0)
          ⟨"data", ["col1"], "column", "value", true, true, true⟩ :=
  C9_pure_no_mutation ⟨[⟨[("data", [Value.str " x"]), ("col1", [Value.num 3])]⟩]⟩ 0
    ⟨"data", ["col1"], "column", "value", true, true, true⟩ (by decide)

/-- **C10** (confirmed).  When the configured value column name equals the
name of a column of the source table (and the empty-selection guard does not
fire first), `pd.melt` raises, the exception is caught, and the caller sees
the transform-error message; no result is produced. -/
theorem C10_value_name_collision (df : Table) (cfg : Config)
    (hvn : cfg.value_name ∈ df.colNames) (hne : cfg.value_cols ≠ []) :
    runTransform df cfg =
      TransformOutcome.error ("Transform error: " ++ ("value_name (" ++ cfg.value_name ++
        ") cannot match an element in the DataFrame columns.")) := by
  unfold runTransform meltSteps melt
  rw [if_neg hne]
  have h1 : ((workOf df cfg).colNames.contains cfg.value_name) = true := by
    rw [workOf_colNames]; exact List.elem_iff.mpr hvn
  rw [h1]
  simp

/-- Witness for C10: `value_name` set to the existing column `col1`. -/
theorem C10_value_name_collision_witness :
    runTransform ⟨[("data", [Value.str "x"]), ("col1", [Value.num 1])]⟩
      ⟨"data", ["col1"], "column", "col1", true, true, true⟩ =
    TransformOutcome.error
      "Transform error: value_name (col1) cannot match an element in the DataFrame columns." :=
  C10_value_name_collision _ _ (by decide) (by decide)

/-- **C8** (corrected; the amended claim).  Transforming a zero-row table
succeeds with a zero-row result carrying exactly the three configured column
names, for every configuration that passes the step-1 validation *and* whose
output column names are fresh: the value column name must not collide with a
source column (else `pd.melt` raises even on an empty table; see the
counterexample) and the variable column name must differ from the other two
output names (else, with keep-ID-order on, the duplicated labels make
`pd.Categorical`/`sort_values` raise even on an empty table). -/
theorem C8_empty_table (df : Table) (cfg : Config) (hv : cfg.Valid df)
    (hvar1 : cfg.var_name ≠ cfg.id_col) (hvar2 : cfg.var_name ≠ cfg.value_name)
    (hempty : ∀ p ∈ df.cols, p.2 = []) :
    runTransform df cfg =
      TransformOutcome.ok ⟨cfg.id_col, cfg.var_name, cfg.value_name, []⟩ := by
  have hwf0 : ∀ p ∈ df.cols, p.2.length = 0 := fun p hp => by rw [hempty p hp]; rfl
  have hwempty : ∀ p ∈ (workOf df cfg).cols, p.2 = [] := by
    unfold workOf
    by_cases hs : cfg.strip_ws <;> simp only [hs, ite_true, ite_false, reduceIte]
    · intro p hp
      unfold strip_ws_table at hp
      simp only [List.mem_map] at hp
      obtain ⟨q, hq, rfl⟩ := hp
      by_cases hd : is_string_dtype q.2 <;>
        simp [hd, stripCol, hempty q hq, is_string_dtype]
    · exact hempty
  have hidnil : (workOf df cfg).get cfg.id_col = [] := Table.get_eq_nil _ hwempty _
  have hnull : cfg.keep_order = true → Value.null ∉ (workOf df cfg).get cfg.id_col := by
    intro _
    rw [hidnil]
    exact List.not_mem_nil _
  rw [runTransform_valid df cfg 0 hwf0 hv hvar1 hvar2 hnull]
  have hmelt : melted df cfg = [] := by
    unfold melted meltRows
    simp [hidnil]
  by_cases hd : cfg.dropna <;> by_cases hk : cfg.keep_order <;>
    simp [finalRows, afterNA, sortRows, hmelt, hd, hk]

/-- Counterexample to C8 as stated: an empty (zero-row) table and a
configuration that passes the specification's validation conditions, but whose
value column name equals a source column name: the transform reports an error
instead of the empty three-column result. -/
theorem C8_counterexample :
    (("data" : String) ∈ (⟨[("data", []), ("col1", []), ("value", [])]⟩ : Table).colNames ∧
      (["col1"] : List String) ≠ [] ∧
      (∀ c ∈ (["col1"] : List String), c ≠ "data" ∧
        c ∈ (⟨[("data", []), ("col1", []), ("value", [])]⟩ : Table).colNames)) ∧
    (∀ p ∈ (⟨[("data", []), ("col1", []), ("value", [])]⟩ : Table).cols, p.2 = []) ∧
    runTransform ⟨[("data", []), ("col1", []), ("value", [])]⟩
      ⟨"data", ["col1"], "column", "value", true, true, true⟩ =
    TransformOutcome.error
      "Transform error: value_name (value) cannot match an element in the DataFrame columns." := by
  decide

/-- Witness for C8: an empty two-column table with a fresh value column name
yields the empty three-column result. -/
theorem C8_empty_table_witness :
    runTransform ⟨[("data", []), ("col1", [])]⟩
      ⟨"data", ["col1"], "column", "value", true, true, true⟩ =
    TransformOutcome.ok ⟨"data", "column", "value", []⟩ :=
  C8_empty_table _ _ (by decide) (by decide) (by decide) (by decide)

/-- **C7** (corrected; the amended claim).  Whenever the transform with
`dropna` on produces a Result — which additionally requires fresh output
column names and, when keep-ID-order is on, no missing value in the work
table's id column, since otherwise the run errors out and nothing is removed
or returned — the result rows are exactly the melted rows whose value cell is
not the missing marker (as a multiset: the keep-ID-order option may
additionally reorder them), and the NA test used by the filter rejects
neither numeric `0` nor the empty string nor boolean `False`. -/
theorem C7_dropna_exact (df : Table) (cfg : Config) (n : Nat)
    (hwf : ∀ p ∈ df.cols, p.2.length = n) (hv : cfg.Valid df)
    (hvar1 : cfg.var_name ≠ cfg.id_col) (hvar2 : cfg.var_name ≠ cfg.value_name)
    (hnull : cfg.keep_order = true → Value.null ∉ (workOf df cfg).get cfg.id_col)
    (hd : cfg.dropna = true) :
    ∃ m, runTransform df cfg = TransformOutcome.ok m ∧
      m.rows.Perm ((melted df cfg).filter (fun r => !(r.valv.isNA))) ∧
      Value.isNA (Value.num 0) = false ∧ Value.isNA (Value.str "") = false ∧
      Value.isNA (Value.bool false) = false := by
  refine ⟨_, runTransform_valid df cfg n hwf hv hvar1 hvar2 hnull, ?_, rfl, rfl, rfl⟩
  show (finalRows df cfg).Perm _
  unfold finalRows afterNA sortRows
  rw [hd]
  by_cases hk : cfg.keep_order <;>
    simp only [hk, ite_true, ite_false, reduceIte, if_true, if_false]
  · exact List.perm_insertionSort _ _
  · exact List.Perm.refl _

/-- Witness for C7: a table whose value column holds `0`, `""`, `False` and a
null; only the null row is removed. -/
theorem C7_dropna_exact_witness :
    ∃ m, runTransform
        ⟨[("data", [Value.str "w", Value.str "x", Value.str "y", Value.str "z"]),
          ("col1", [Value.num 0, Value.str "", Value.bool false, Value.null])]⟩
        ⟨"data", ["col1"], "column", "value", true, false, false⟩
        = TransformOutcome.ok m ∧
      m.rows.Perm ((melted
        ⟨[("data", [Value.str "w", Value.str "x", Value.str "y", Value.str "z"]),
          ("col1", [Value.num 0, Value.str "", Value.bool false, Value.null])]⟩
        ⟨"data", ["col1"], "column", "value", true, false, false⟩).filter
          (fun r => !(r.valv.isNA))) ∧
      Value.isNA (Value.num 0) = false ∧ Value.isNA (Value.str "") = false ∧
      Value.isNA (Value.bool false) = false :=
  C7_dropna_exact _ _ 4 (by decide) (by decide) (by decide) (by decide) (by decide) rfl

/-- Counterexample to C7 as stated: `dropna` on, a value column holding `0`
and `""` (which must not be dropped) — but the id column has a missing value
and keep-ID-order is on, so `pd.Categorical` raises and the app produces no
result at all: nothing is removed because nothing is returned. -/
theorem C7_counterexample :
    (("data" : String) ∈ (⟨[("data", [Value.str "x", Value.null]),
        ("col1", [Value.num 0, Value.str ""])]⟩ : Table).colNames ∧
      (["col1"] : List String) ≠ [] ∧
      (∀ c ∈ (["col1"] : List String), c ≠ "data" ∧
        c ∈ (⟨[("data", [Value.str "x", Value.null]),
          ("col1", [Value.num 0, Value.str ""])]⟩ : Table).colNames)) ∧
    runTransform ⟨[("data", [Value.str "x", Value.null]),
        ("col1", [Value.num 0, Value.str ""])]⟩
      ⟨"data", ["col1"], "column", "value", true, false, true⟩
      = TransformOutcome.error "Transform error: Categorical categories cannot be null" := by
  decide

/-! ## Output ordering of the bare melt (claim C2) -/

theorem flatMap_getElem?_uniform {α β : Type} (l : List α) (f : α → List β) (n : Nat)
    (hf : ∀ a ∈ l, (f a).length = n) :
    ∀ i j, (hi : i < l.length) → j < n →
      (l.flatMap f)[i * n + j]? = (f (l.get ⟨i, hi⟩))[j]? := by
  induction l with
  | nil => intro i j hi _; exact absurd hi (Nat.not_lt_zero i)
  | cons a t ih =>
    intro i j hi hj
    rw [List.flatMap_cons]
    cases i with
    | zero =>
      have hlen : (f a).length = n := hf a (List.mem_cons_self a t)
      rw [Nat.zero_mul, Nat.zero_add, List.getElem?_append_left (by omega)]
      rfl
    | succ i2 =>
      have hlen : (f a).length = n := hf a (List.mem_cons_self a t)
      have hidx : (i2 + 1) * n + j = (f a).length + (i2 * n + j) := by
        rw [hlen]; ring
      rw [hidx, List.getElem?_append_right (by omega)]
      have hsub : (f a).length + (i2 * n + j) - (f a).length = i2 * n + j := by omega
      rw [hsub]
      exact ih (fun b hb => hf b (List.mem_cons_of_mem a hb)) i2 j
        (Nat.lt_of_succ_lt_succ hi) hj

/-- **C2** (corrected; the amended claim).  With `keep_order` off and the
variable column name not clobbering the id or value data (melt's name-keyed
dict overwrites them when `var_name` equals `id_col` or `value_name`), the
result retains the order `pd.melt` emits, which is **column-major** (for each
value column in configured order, all source rows in source order), with NA
filtering only removing rows (a sublist, no resort); in particular with
`dropna` also off, the output row at position `i * n + j` is the pair of
source row `j` and value column `i`. -/
theorem C2_column_major (df : Table) (cfg : Config) (n : Nat)
    (hwf : ∀ p ∈ df.cols, p.2.length = n) (hv : cfg.Valid df)
    (hvar1 : cfg.var_name ≠ cfg.id_col) (hvar2 : cfg.var_name ≠ cfg.value_name)
    (hko : cfg.keep_order = false) :
    ∃ m, runTransform df cfg = TransformOutcome.ok m ∧
      m.rows.Sublist (melted df cfg) ∧
      (cfg.dropna = false →
        m.rows.length = cfg.value_cols.length * n ∧
        ∀ i j, i < cfg.value_cols.length → j < n →
          m.rows[i * n + j]? =
            some ⟨((workOf df cfg).get cfg.id_col).getD j Value.null,
              cfg.value_cols.getD i "",
              ((workOf df cfg).get (cfg.value_cols.getD i "")).getD j Value.null⟩) := by
  obtain ⟨hid, hne, hnd, hvc, hvn⟩ := hv
  have hwwf := workOf_wf df cfg n hwf
  have hnames := workOf_colNames df cfg
  have hidlen : ((workOf df cfg).get cfg.id_col).length = n :=
    Table.get_length _ n hwwf _ (hnames ▸ hid)
  have hvclen : ∀ c ∈ cfg.value_cols, ((workOf df cfg).get c).length = n :=
    fun c hc => Table.get_length _ n hwwf _ (hnames ▸ (hvc c hc).2)
  have hnull : cfg.keep_order = true → Value.null ∉ (workOf df cfg).get cfg.id_col := by
    intro h
    rw [hko] at h
    exact absurd h (by simp)
  refine ⟨_, runTransform_valid df cfg n hwf ⟨hid, hne, hnd, hvc, hvn⟩ hvar1 hvar2 hnull,
    ?_, ?_⟩
  · show (finalRows df cfg).Sublist (melted df cfg)
    unfold finalRows afterNA
    rw [hko]
    by_cases hd : cfg.dropna <;>
      simp only [hd, ite_true, ite_false, reduceIte, Bool.false_eq_true]
    · exact List.filter_sublist _
    · exact List.Sublist.refl _
  · intro hdrop
    have hrows : (finalRows df cfg) = melted df cfg := by
      unfold finalRows afterNA
      rw [hko, hdrop]
      simp
    rw [hrows]
    constructor
    · exact meltRows_length _ _ _ n hidlen hvclen
    · intro i j hi hj
      have hflen : ∀ c ∈ cfg.value_cols,
          ((((workOf df cfg).get cfg.id_col).zip ((workOf df cfg).get c)).map
            (fun p => (⟨p.1, c, p.2⟩ : Row3))).length = n := by
        intro c hc
        rw [List.length_map, List.length_zip, hidlen, hvclen c hc, Nat.min_self]
      have hmain := flatMap_getElem?_uniform cfg.value_cols
        (fun vc => (((workOf df cfg).get cfg.id_col).zip ((workOf df cfg).get vc)).map
          (fun p => (⟨p.1, vc, p.2⟩ : Row3))) n hflen i j hi hj
      unfold melted meltRows
      rw [hmain]
      set vc := cfg.value_cols.get ⟨i, hi⟩ with hvcdef
      have hvcmem : vc ∈ cfg.value_cols := List.get_mem _ _ _
      have hzlen : (((workOf df cfg).get cfg.id_col).zip ((workOf df cfg).get vc)).length
          = n := by
        rw [List.length_zip, hidlen, hvclen vc hvcmem, Nat.min_self]
      have hjz : j < (((workOf df cfg).get cfg.id_col).zip ((workOf df cfg).get vc)).length := by
        omega
      have hjid : j < ((workOf df cfg).get cfg.id_col).length := by omega
      have hjvc : j < ((workOf df cfg).get vc).length := by rw [hvclen vc hvcmem]; exact hj
      rw [List.getElem?_map, List.getElem?_eq_getElem hjz, List.getElem_zip]
      have hgetD1 : ((workOf df cfg).get cfg.id_col).getD j Value.null
          = ((workOf df cfg).get cfg.id_col).get ⟨j, hjid⟩ := by
        simp [List.getD_eq_getElem?_getD, List.getElem?_eq_getElem hjid]
      have hgetD2 : cfg.value_cols.getD i "" = vc := by
        simp [hvcdef, List.getD_eq_getElem?_getD, List.getElem?_eq_getElem hi]
      have hgetD3 : ((workOf df cfg).get (cfg.value_cols.getD i "")).getD j Value.null
          = ((workOf df cfg).get vc).get ⟨j, hjvc⟩ := by
        rw [hgetD2]
        simp [List.getD_eq_getElem?_getD, List.getElem?_eq_getElem hjvc]
      rw [hgetD1, hgetD3, hgetD2]
      simp

/-- Counterexample to C2 as stated: with `keep_order` off, the second output
row of a 2-row, 2-value-column table comes from source row 2 and the first
value column (column-major melt order), not from source row 1 and the second
value column as the claimed row-major order requires. -/
theorem C2_counterexample :
    runTransform ⟨[("data", [Value.str "x", Value.str "y"]),
        ("col1", [Value.str "a", Value.str "b"]),
        ("col2", [Value.str "c", Value.str "d"])]⟩
      ⟨"data", ["col1", "col2"], "column", "value", false, false, false⟩
      = TransformOutcome.ok ⟨"data", "column", "value",
        [⟨Value.str "x", "col1", Value.str "a"⟩,
         ⟨Value.str "y", "col1", Value.str "b"⟩,
         ⟨Value.str "x", "col2", Value.str "c"⟩,
         ⟨Value.str "y", "col2", Value.str "d"⟩]⟩ ∧
    ([⟨Value.str "x", "col1", Value.str "a"⟩,
      ⟨Value.str "y", "col1", Value.str "b"⟩,
      ⟨Value.str "x", "col2", Value.str "c"⟩,
      ⟨Value.str "y", "col2", Value.str "d"⟩] : List Row3) ≠
    ([⟨Value.str "x", "col1", Value.str "a"⟩,
      ⟨Value.str "x", "col2", Value.str "c"⟩,
      ⟨Value.str "y", "col1", Value.str "b"⟩,
      ⟨Value.str "y", "col2", Value.str "d"⟩] : List Row3) := by
  decide

/-- Witness for C2's amended theorem on the 2-by-2 table above. -/
theorem C2_column_major_witness :
    ∃ m, runTransform ⟨[("data", [Value.str "x", Value.str "y"]),
        ("col1", [Value.str "a", Value.str "b"]),
        ("col2", [Value.str "c", Value.str "d"])]⟩
      ⟨"data", ["col1", "col2"], "column", "value", false, false, false⟩
      = TransformOutcome.ok m ∧
      m.rows.Sublist (melted ⟨[("data", [Value.str "x", Value.str "y"]),
        ("col1", [Value.str "a", Value.str "b"]),
        ("col2", [Value.str "c", Value.str "d"])]⟩
        ⟨"data", ["col1", "col2"], "column", "value", false, false, false⟩) ∧
      ((false : Bool) = false →
        m.rows.length = 2 * 2 ∧
        ∀ i j, i < 2 → j < 2 →
          m.rows[i * 2 + j]? =
            some ⟨((workOf ⟨[("data", [Value.str "x", Value.str "y"]),
                ("col1", [Value.str "a", Value.str "b"]),
                ("col2", [Value.str "c", Value.str "d"])]⟩
                ⟨"data", ["col1", "col2"], "column", "value", false, false, false⟩).get
                  "data").getD j Value.null,
              (["col1", "col2"] : List String).getD i "",
              ((workOf ⟨[("data", [Value.str "x", Value.str "y"]),
                ("col1", [Value.str "a", Value.str "b"]),
                ("col2", [Value.str "c", Value.str "d"])]⟩
                ⟨"data", ["col1", "col2"], "column", "value", false, false, false⟩).get
                  ((["col1", "col2"] : List String).getD i "")).getD j Value.null⟩) :=
  C2_column_major _ _ 2 (by decide) (by decide) (by decide) (by decide) rfl

/-! ## The keep-ID-order sort (claims C4 and C5) -/

theorem varLtB_asymm : ∀ (x y : List Char), varLtB x y = true → varLtB y x = false := by
  intro x
  induction x with
  | nil =>
    intro y h
    cases y with
    | nil => simp [varLtB] at h
    | cons c2 t2 => simp [varLtB]
  | cons c1 t1 ih =>
    intro y h
    cases y with
    | nil => simp [varLtB] at h
    | cons c2 t2 =>
      simp only [varLtB, Bool.or_eq_true, Bool.and_eq_true, Nat.blt_eq, beq_iff_eq] at h
      rw [Bool.eq_false_iff]
      intro hcon
      simp only [varLtB, Bool.or_eq_true, Bool.and_eq_true, Nat.blt_eq, beq_iff_eq] at hcon
      rcases h with h | ⟨heq, ht⟩ <;> rcases hcon with hc | ⟨hceq, hct⟩
      · omega
      · omega
      · omega
      · rw [ih t2 ht] at hct
        exact Bool.false_ne_true hct

theorem blt_false_iff (a b : Nat) : Nat.blt a b = false ↔ ¬ a < b := by
  rw [← Nat.blt_eq]
  exact Bool.eq_false_iff

theorem beq_false_iff_nat (a b : Nat) : (a == b) = false ↔ ¬ a = b := by
  rw [← beq_iff_eq (a := a) (b := b)]
  exact Bool.eq_false_iff

theorem varLtB_le_trans : ∀ (x y z : List Char),
    varLtB y x = false → varLtB z y = false → varLtB z x = false := by
  intro x
  induction x with
  | nil =>
    intro y z h1 h2
    cases z <;> simp [varLtB]
  | cons cx tx ih =>
    intro y z h1 h2
    cases y with
    | nil => simp [varLtB] at h1
    | cons cy ty =>
      cases z with
      | nil => simp [varLtB] at h2
      | cons cz tz =>
        simp only [varLtB, Bool.or_eq_false_iff, Bool.and_eq_false_iff] at h1 h2 ⊢
        obtain ⟨h1a, h1b⟩ := h1
        obtain ⟨h2a, h2b⟩ := h2
        rw [blt_false_iff] at h1a h2a
        constructor
        · rw [blt_false_iff]; omega
        · by_cases hzx : cz.toNat = cx.toNat
          · right
            have hcy : cy.toNat = cx.toNat := by omega
            have hcz : cz.toNat = cy.toNat := by omega
            have ht1 : varLtB ty tx = false := by
              rcases h1b with h | h
              · rw [beq_false_iff_nat] at h; exact absurd hcy h
              · exact h
            have ht2 : varLtB tz ty = false := by
              rcases h2b with h | h
              · rw [beq_false_iff_nat] at h; exact absurd hcz h
              · exact h
            exact ih ty tz ht1 ht2
          · left
            rw [beq_false_iff_nat]
            exact hzx

theorem strLtB_total (x y : String) : strLtB y x = false ∨ strLtB x y = false := by
  cases hb : strLtB x y with
  | true => exact Or.inl (varLtB_asymm _ _ hb)
  | false => exact Or.inr rfl

theorem strLtB_le_trans (x y z : String) (h1 : strLtB y x = false)
    (h2 : strLtB z y = false) : strLtB z x = false :=
  varLtB_le_trans x.data y.data z.data h1 h2

instance rowLe.instIsTotal (cats : List Value) : IsTotal Row3 (rowLe cats) := ⟨by
  intro r s
  unfold rowLe
  rcases Nat.lt_trichotomy (cats.indexOf r.idv) (cats.indexOf s.idv) with h | h | h
  · exact Or.inl (Or.inl h)
  · rcases strLtB_total r.varv s.varv with h2 | h2
    · exact Or.inl (Or.inr ⟨h, h2⟩)
    · exact Or.inr (Or.inr ⟨h.symm, h2⟩)
  · exact Or.inr (Or.inl h)⟩

instance rowLe.instIsTrans (cats : List Value) : IsTrans Row3 (rowLe cats) := ⟨by
  intro a b c hab hbc
  unfold rowLe at *
  rcases hab with h1 | h1 <;> rcases hbc with h2 | h2
  · exact Or.inl (h1.trans h2)
  · exact Or.inl (h2.1 ▸ h1)
  · exact Or.inl (h1.1 ▸ h2)
  · exact Or.inr ⟨h1.1.trans h2.1, strLtB_le_trans a.varv b.varv c.varv h1.2 h2.2⟩⟩

theorem sortRows_sorted (cats : List Value) (rows : List Row3) :
    List.Sorted (rowLe cats) (sortRows cats rows) :=
  List.sorted_insertionSort (rowLe cats) rows

theorem sortRows_rel_of_getElem (cats : List Value) (rows : List Row3)
    (i j : Nat) (ri rj : Row3) (hri : (sortRows cats rows)[i]? = some ri)
    (hrj : (sortRows cats rows)[j]? = some rj) (hij : i < j) :
    rowLe cats ri rj := by
  obtain ⟨hi, hgi⟩ := List.getElem?_eq_some.mp hri
  obtain ⟨hj, hgj⟩ := List.getElem?_eq_some.mp hrj
  have hpw := (sortRows_sorted cats rows)
  rw [List.Sorted, List.pairwise_iff_getElem] at hpw
  have := hpw i j hi hj hij
  rw [hgi, hgj] at this
  exact this

theorem dedupFirst_indexOf_lt {α : Type} [DecidableEq α] (l : List α) (a b : α)
    (seen : List α) (ha : a ∈ l) (hA : a ∉ seen) (hB : b ∉ seen)
    (hlt : l.indexOf a < l.indexOf b) :
    (dedupFirst seen l).indexOf a < (dedupFirst seen l).indexOf b := by
  induction l generalizing seen with
  | nil => cases ha
  | cons c t ih =>
    unfold dedupFirst
    by_cases hc : c ∈ seen
    · rw [if_pos hc]
      have hac : c ≠ a := fun h => hA (h ▸ hc)
      have hbc : c ≠ b := fun h => hB (h ▸ hc)
      have ha2 : a ∈ t := by
        rcases List.mem_cons.mp ha with h | h
        · exact absurd h.symm hac
        · exact h
      rw [List.indexOf_cons_ne t hac, List.indexOf_cons_ne t hbc] at hlt
      exact ih seen ha2 hA hB (Nat.lt_of_succ_lt_succ hlt)
    · rw [if_neg hc]
      by_cases hca : c = a
      · subst hca
        have hcb : c ≠ b := by
          intro h
          subst h
          exact Nat.lt_irrefl _ hlt
        rw [List.indexOf_cons_self, List.indexOf_cons_ne _ hcb]
        exact Nat.succ_pos _
      · have hcb : c ≠ b := by
          intro h
          subst h
          rw [List.indexOf_cons_self] at hlt
          exact Nat.not_lt_zero _ hlt
        have ha2 : a ∈ t := by
          rcases List.mem_cons.mp ha with h | h
          · exact absurd h.symm hca
          · exact h
        have hlt2 : t.indexOf a < t.indexOf b := by
          rw [List.indexOf_cons_ne t hca, List.indexOf_cons_ne t hcb] at hlt
          exact Nat.lt_of_succ_lt_succ hlt
        have hA2 : a ∉ c :: seen := by
          simp only [List.mem_cons, not_or]
          exact ⟨fun h => hca h.symm, hA⟩
        have hB2 : b ∉ c :: seen := by
          simp only [List.mem_cons, not_or]
          exact ⟨fun h => hcb h.symm, hB⟩
        have := ih (c :: seen) ha2 hA2 hB2 hlt2
        rw [List.indexOf_cons_ne _ hca, List.indexOf_cons_ne _ hcb]
        exact Nat.succ_lt_succ this

theorem dropDuplicates_indexOf_lt (col : List Value) (a b : Value)
    (ha : a ∈ col) (hlt : col.indexOf a < col.indexOf b) :
    (dropDuplicates col).indexOf a < (dropDuplicates col).indexOf b :=
  dedupFirst_indexOf_lt col a b [] ha (by simp) (by simp) hlt

theorem finalRows_eq_sorted (df : Table) (cfg : Config) (hko : cfg.keep_order = true) :
    finalRows df cfg = sortRows (idCats df cfg) (afterNA df cfg) := by
  unfold finalRows
  rw [hko]
  simp

theorem keepOrderStep_ok_inv (work : Table) (cfg : Config) (m1 m : MeltResult)
    (h : keepOrderStep work cfg m1 = TransformOutcome.ok m) :
    m = { m1 with rows := sortRows (dropDuplicates (work.get cfg.id_col)) m1.rows } := by
  unfold keepOrderStep at h
  by_cases h1 : ((dropDuplicates (work.get cfg.id_col)).contains Value.null) = true
  · rw [if_pos h1] at h
    cases h
  · rw [if_neg h1] at h
    by_cases h2 : (cfg.var_name == cfg.id_col) = true
    · rw [if_pos h2] at h
      cases h
    · rw [if_neg h2] at h
      by_cases h3 : (cfg.var_name == cfg.value_name) = true
      · rw [if_pos h3] at h
        cases h
      · rw [if_neg h3] at h
        exact (TransformOutcome.ok.inj h).symm

/-- Inversion: a valid run with the keep-ID-order sort on that did produce a
result produced sorted rows (the error checks of the keep-order block must
all have passed). -/
theorem runTransform_keepOrder_rows (df : Table) (cfg : Config) (m : MeltResult)
    (hv : cfg.Valid df) (hko : cfg.keep_order = true)
    (hm : runTransform df cfg = TransformOutcome.ok m) :
    ∃ rows, m.rows = sortRows (idCats df cfg) rows := by
  obtain ⟨hid, hne, hnd, hvc, hvn⟩ := hv
  have hnames := workOf_colNames df cfg
  have h1 : ((workOf df cfg).colNames.contains cfg.value_name) = false := by
    rw [hnames]; exact contains_eq_false_of_not_mem hvn
  have h2 : ((cfg.id_col :: cfg.value_cols).all
      (fun l => (workOf df cfg).colNames.contains l)) = true := by
    rw [List.all_eq_true]
    intro c hc
    rw [hnames]
    rcases List.mem_cons.mp hc with rfl | hc2
    · exact List.elem_iff.mpr hid
    · exact List.elem_iff.mpr (hvc c hc2).2
  unfold runTransform meltSteps melt at hm
  rw [if_neg hne, h1, if_neg (by simp), h2, if_pos rfl, hko] at hm
  simp only [reduceIte] at hm
  have hminv := keepOrderStep_ok_inv _ _ _ _ hm
  rw [hminv]
  exact ⟨_, rfl⟩

/-- **C5** (confirmed).  With `keep_order` on, output rows are grouped by the
first-occurrence order of their id values: if the first occurrence of id `A`
in the work table's id column precedes that of id `B`, then every output row
carrying `A` comes before every output row carrying `B`; duplicated ids
therefore group together. -/
theorem C5_id_grouping (df : Table) (cfg : Config) (hv : cfg.Valid df)
    (hko : cfg.keep_order = true) (m : MeltResult)
    (hm : runTransform df cfg = TransformOutcome.ok m)
    (A B : Value) (hA : A ∈ (workOf df cfg).get cfg.id_col)
    (hfirst : ((workOf df cfg).get cfg.id_col).indexOf A
      < ((workOf df cfg).get cfg.id_col).indexOf B)
    (i j : Nat) (ri rj : Row3)
    (hri : m.rows[i]? = some ri) (hrj : m.rows[j]? = some rj)
    (hiA : ri.idv = A) (hjB : rj.idv = B) : i < j := by
  obtain ⟨rows0, hrows⟩ := runTransform_keepOrder_rows df cfg m hv hko hm
  rw [hrows] at hri hrj
  have hcats : (idCats df cfg).indexOf A < (idCats df cfg).indexOf B :=
    dropDuplicates_indexOf_lt _ A B hA hfirst
  by_contra hnot
  push_neg at hnot
  rcases Nat.lt_or_ge j i with hji | hij2
  · have hle := sortRows_rel_of_getElem _ _ j i rj ri hrj hri hji
    unfold rowLe at hle
    rw [hiA, hjB] at hle
    rcases hle with h | h
    · omega
    · omega
  · have hij3 : i = j := Nat.le_antisymm hij2 hnot
    subst hij3
    rw [hri] at hrj
    have h9 : ri = rj := Option.some.inj hrj
    subst h9
    rw [hiA] at hjB
    subst hjB
    exact Nat.lt_irrefl _ hcats

/-- Witness for C5: ids appear as `z` then `x` in the source; the sorted
output keeps all `z` rows (position 0) before all `x` rows (position 1). -/
theorem C5_id_grouping_witness :
    runTransform ⟨[("data", [Value.str "z", Value.str "x"]),
        ("col1", [Value.num 1, Value.num 2])]⟩
      ⟨"data", ["col1"], "column", "value", false, false, true⟩
      = TransformOutcome.ok ⟨"data", "column", "value",
        [⟨Value.str "z", "col1", Value.num 1⟩, ⟨Value.str "x", "col1", Value.num 2⟩]⟩ ∧
    (0 : Nat) < 1 := by
  constructor
  · decide
  · exact C5_id_grouping ⟨[("data", [Value.str "z", Value.str "x"]),
        ("col1", [Value.num 1, Value.num 2])]⟩
      ⟨"data", ["col1"], "column", "value", false, false, true⟩
      (by decide) rfl
      ⟨"data", "column", "value",
        [⟨Value.str "z", "col1", Value.num 1⟩, ⟨Value.str "x", "col1", Value.num 2⟩]⟩
      (by decide) (Value.str "z") (Value.str "x") (by decide) (by decide)
      0 1 ⟨Value.str "z", "col1", Value.num 1⟩ ⟨Value.str "x", "col1", Value.num 2⟩
      (by decide) (by decide) rfl rfl

/-- **C4** (corrected; the amended claim).  With `keep_order` on, output rows
sharing an id value are ordered among themselves by **lexicographic** order of
the variable column's value (`sort_values` sorts the plain string column
`var_name` ascending), not by the configured `value_cols` order. -/
theorem C4_tiebreak_lex (df : Table) (cfg : Config) (hv : cfg.Valid df)
    (hko : cfg.keep_order = true) (m : MeltResult)
    (hm : runTransform df cfg = TransformOutcome.ok m)
    (i j : Nat) (ri rj : Row3)
    (hri : m.rows[i]? = some ri) (hrj : m.rows[j]? = some rj) (hij : i < j)
    (hsame : ri.idv = rj.idv) : strLtB rj.varv ri.varv = false := by
  obtain ⟨rows0, hrows⟩ := runTransform_keepOrder_rows df cfg m hv hko hm
  rw [hrows] at hri hrj
  have hle := sortRows_rel_of_getElem _ _ i j ri rj hri hrj hij
  unfold rowLe at hle
  rw [hsame] at hle
  rcases hle with h | h
  · exact absurd h (Nat.lt_irrefl _)
  · exact h.2

/-- Counterexample to C4 as stated: value columns configured in the order
`col2`, `col1`; the rows of the single id are emitted in lexicographic
variable order `col1`, `col2`, not in the configured order. -/
theorem C4_counterexample :
    runTransform ⟨[("data", [Value.str "x"]),
        ("col1", [Value.str "a"]), ("col2", [Value.str "b"])]⟩
      ⟨"data", ["col2", "col1"], "column", "value", false, false, true⟩
      = TransformOutcome.ok ⟨"data", "column", "value",
        [⟨Value.str "x", "col1", Value.str "a"⟩,
         ⟨Value.str "x", "col2", Value.str "b"⟩]⟩ ∧
    ([⟨Value.str "x", "col1", Value.str "a"⟩,
      ⟨Value.str "x", "col2", Value.str "b"⟩] : List Row3)
      ≠ [⟨Value.str "x", "col2", Value.str "b"⟩,
         ⟨Value.str "x", "col1", Value.str "a"⟩] := by
  decide

/-- Witness for C4's amended theorem: the two rows of the single id come out
with lexicographically ordered variable names. -/
theorem C4_tiebreak_lex_witness :
    runTransform ⟨[("data", [Value.str "x"]),
        ("col1", [Value.str "a"]), ("col2", [Value.str "b"])]⟩
      ⟨"data", ["col2", "col1"], "column", "value", false, false, true⟩
      = TransformOutcome.ok ⟨"data", "column", "value",
        [⟨Value.str "x", "col1", Value.str "a"⟩,
         ⟨Value.str "x", "col2", Value.str "b"⟩]⟩ ∧
    strLtB "col2" "col1" = false := by
  constructor
  · decide
  · exact C4_tiebreak_lex ⟨[("data", [Value.str "x"]),
        ("col1", [Value.str "a"]), ("col2", [Value.str "b"])]⟩
      ⟨"data", ["col2", "col1"], "column", "value", false, false, true⟩
      (by decide) rfl
      ⟨"data", "column", "value",
        [⟨Value.str "x", "col1", Value.str "a"⟩,
         ⟨Value.str "x", "col2", Value.str "b"⟩]⟩
      (by decide) 0 1
      ⟨Value.str "x", "col1", Value.str "a"⟩
      ⟨Value.str "x", "col2", Value.str "b"⟩
      (by decide) (by decide) (by decide) rfl

/-! ## Whitespace trimming (claim C3) -/

/-- **C3** (corrected; the amended claim).  The `strip_ws` step trims exactly
the columns whose cells are **all** strings: there every cell is replaced by
its leading/trailing-whitespace-stripped form; a column containing any
non-string cell — in particular any null (pandas 2's `is_string_dtype`
rejects object columns containing nulls) — is left completely untouched.  A
null cell therefore always stays null, but string cells of a null-containing
column keep their padding. -/
theorem C3_strip_semantics (t : Table) (i : Nat) (p : String × List Value)
    (hp : t.cols[i]? = some p) :
    ((∀ v ∈ p.2, v.isStr = true) →
      ∀ (j : Nat) (s : String), p.2[j]? = some (Value.str s) →
        ∃ q, (strip_ws_table t).cols[i]? = some q ∧ q.1 = p.1 ∧
          q.2[j]? = some (Value.str (pyStrip s))) ∧
    ((∃ v ∈ p.2, v.isStr = false) → (strip_ws_table t).cols[i]? = some p) ∧
    (∀ (j : Nat), p.2[j]? = some Value.null →
      ∃ q, (strip_ws_table t).cols[i]? = some q ∧ q.1 = p.1 ∧
        q.2[j]? = some Value.null) := by
  have hmap : (strip_ws_table t).cols[i]? =
      some (if is_string_dtype p.2 then (p.1, stripCol p.2) else p) := by
    unfold strip_ws_table
    rw [List.getElem?_map, hp]
    rfl
  have huntouched : (∃ v ∈ p.2, v.isStr = false) →
      (strip_ws_table t).cols[i]? = some p := by
    intro hex
    obtain ⟨v, hv, hvfalse⟩ := hex
    have hdty : is_string_dtype p.2 = false := by
      rw [Bool.eq_false_iff]
      intro hall
      rw [is_string_dtype, List.all_eq_true] at hall
      rw [hall v hv] at hvfalse
      simp at hvfalse
    rw [hmap, hdty]
    simp
  refine ⟨?_, huntouched, ?_⟩
  · intro hall j s hj
    have hdty : is_string_dtype p.2 = true := by
      rw [is_string_dtype, List.all_eq_true]
      exact hall
    refine ⟨(p.1, stripCol p.2), by rw [hmap, hdty]; simp, rfl, ?_⟩
    show (stripCol p.2)[j]? = some (Value.str (pyStrip s))
    unfold stripCol
    rw [List.getElem?_map, hj]
    rfl
  · intro j hj
    have hnull : Value.null ∈ p.2 := List.getElem?_mem hj
    refine ⟨p, huntouched ⟨Value.null, hnull, rfl⟩, rfl, hj⟩

/-- Counterexample to C3 as stated: the column `col1` holds only strings and a
null, so the claim requires its padded cell `" a"` to be stripped (and the
null kept); the code leaves the whole column untouched, so the padding
survives. -/
theorem C3_counterexample :
    strip_ws_table ⟨[("data", [Value.str "x", Value.str "y"]),
        ("col1", [Value.str " a", Value.null])]⟩
      = ⟨[("data", [Value.str "x", Value.str "y"]),
          ("col1", [Value.str " a", Value.null])]⟩ ∧
    (∀ v ∈ [Value.str " a", Value.null], v.isStr = true ∨ v = Value.null) ∧
    pyStrip " a" ≠ " a" := by
  decide

/-- Witness for C3: a padded all-string column is stripped cell-wise, a
null-containing column stays untouched (null stays null). -/
theorem C3_strip_semantics_witness :
    (∃ q, (strip_ws_table ⟨[("data", [Value.str " x "]), ("col1", [Value.str " a", Value.null])]⟩).cols[0]?
        = some q ∧ q.1 = "data" ∧ q.2[0]? = some (Value.str (pyStrip " x "))) ∧
    (strip_ws_table ⟨[("data", [Value.str " x "]), ("col1", [Value.str " a", Value.null])]⟩).cols[1]?
        = some ("col1", [Value.str " a", Value.null]) ∧
    (∃ q, (strip_ws_table ⟨[("data", [Value.str " x "]), ("col1", [Value.str " a", Value.null])]⟩).cols[1]?
        = some q ∧ q.1 = "col1" ∧ q.2[1]? = some Value.null) := by
  refine ⟨?_, ?_, ?_⟩
  · exact (C3_strip_semantics ⟨[("data", [Value.str " x "]), ("col1", [Value.str " a", Value.null])]⟩
      0 ("data", [Value.str " x "]) (by decide)).1 (by decide) 0 " x " (by decide)
  · exact (C3_strip_semantics ⟨[("data", [Value.str " x "]), ("col1", [Value.str " a", Value.null])]⟩
      1 ("col1", [Value.str " a", Value.null]) (by decide)).2.1 ⟨Value.null, by decide, rfl⟩
  · exact (C3_strip_semantics ⟨[("data", [Value.str " x "]), ("col1", [Value.str " a", Value.null])]⟩
      1 ("col1", [Value.str " a", Value.null]) (by decide)).2.2 1 (by decide)

/-! ## Validation behaviour (claim C6) -/

theorem runTransform_error_of_missing (df : Table) (cfg : Config)
    (hne : cfg.value_cols ≠ [])
    (hmiss : ∃ c ∈ cfg.id_col :: cfg.value_cols, c ∉ df.colNames) :
    ∃ msg, runTransform df cfg = TransformOutcome.error msg := by
  unfold runTransform meltSteps melt
  rw [if_neg hne]
  have hnames := workOf_colNames df cfg
  have hall : ((cfg.id_col :: cfg.value_cols).all
      (fun l => (workOf df cfg).colNames.contains l)) = false := by
    obtain ⟨c, hc, hcn⟩ := hmiss
    rw [Bool.eq_false_iff]
    intro hall2
    rw [List.all_eq_true] at hall2
    exact hcn (List.elem_iff.mp (by rw [← hnames]; exact hall2 c hc))
  by_cases hvn : ((workOf df cfg).colNames.contains cfg.value_name) = true
  · rw [hvn]
    exact ⟨_, rfl⟩
  · rw [Bool.not_eq_true] at hvn
    rw [hvn, hall]
    exact ⟨_, rfl⟩

theorem runTransform_ok_of (df : Table) (cfg : Config) (hne : cfg.value_cols ≠ [])
    (hid : cfg.id_col ∈ df.colNames) (hvc : ∀ c ∈ cfg.value_cols, c ∈ df.colNames)
    (hvn : cfg.value_name ∉ df.colNames)
    (hvar1 : cfg.var_name ≠ cfg.id_col) (hvar2 : cfg.var_name ≠ cfg.value_name)
    (hnull : cfg.keep_order = true → Value.null ∉ (workOf df cfg).get cfg.id_col) :
    ∃ m, runTransform df cfg = TransformOutcome.ok m := by
  unfold runTransform meltSteps melt
  rw [if_neg hne]
  have hnames := workOf_colNames df cfg
  have h1 : ((workOf df cfg).colNames.contains cfg.value_name) = false := by
    rw [hnames]; exact contains_eq_false_of_not_mem hvn
  have h2 : ((cfg.id_col :: cfg.value_cols).all
      (fun l => (workOf df cfg).colNames.contains l)) = true := by
    rw [List.all_eq_true]
    intro c hc
    rw [hnames]
    rcases List.mem_cons.mp hc with rfl | hc2
    · exact List.elem_iff.mpr hid
    · exact List.elem_iff.mpr (hvc c hc2)
  rw [h1, h2]
  cases hk : cfg.keep_order with
  | false => exact ⟨_, rfl⟩
  | true =>
    have hcats : ((dropDuplicates ((workOf df cfg).get cfg.id_col)).contains Value.null)
        = false :=
      contains_eq_false_of_not_mem
        (fun hmem => (hnull hk) (mem_of_mem_dedupFirst _ _ _ hmem))
    have hbv1 : (cfg.var_name == cfg.id_col) = false := beq_eq_false_iff_ne.mpr hvar1
    have hbv2 : (cfg.var_name == cfg.value_name) = false := beq_eq_false_iff_ne.mpr hvar2
    unfold keepOrderStep
    rw [hcats, hbv1, hbv2]
    exact ⟨_, rfl⟩

/-- **C6** (corrected; the amended claim).  The caller's table is never
modified, and: an empty `value_cols` selection aborts with the guard's
warning before the unpivot; an absent `id_col` or an absent `value_cols`
entry makes the melt raise, surfaced as a transform-error message; **but** a
`value_cols` entry equal to `id_col` does *not* make the transform fail: with
everything else present — fresh output column names and, when the
keep-ID-order sort is on, no missing id value (the independent failure modes
of `pd.Categorical`/`sort_values`) — the duplicated label is dropped and the
remaining columns are melted into a result. -/
theorem C6_validation (h : Heap) (a : Nat) (cfg : Config) (ha : a < h.objs.length) :
    (execHandler h a cfg).1.read a = h.read a ∧
    (cfg.value_cols = [] →
      (execHandler h a cfg).2 = TransformOutcome.warn "Pick at least one column to unpivot.") ∧
    (cfg.value_cols ≠ [] → cfg.id_col ∉ (h.read a).colNames →
      ∃ msg, (execHandler h a cfg).2 = TransformOutcome.error msg) ∧
    (cfg.value_cols ≠ [] → (∃ c ∈ cfg.value_cols, c ∉ (h.read a).colNames) →
      ∃ msg, (execHandler h a cfg).2 = TransformOutcome.error msg) ∧
    (cfg.value_cols ≠ [] → cfg.id_col ∈ (h.read a).colNames →
      (∀ c ∈ cfg.value_cols, c ∈ (h.read a).colNames) →
      cfg.value_name ∉ (h.read a).colNames →
      cfg.var_name ≠ cfg.id_col → cfg.var_name ≠ cfg.value_name →
      (cfg.keep_order = true → Value.null ∉ (workOf (h.read a) cfg).get cfg.id_col) →
      ∃ m, (execHandler h a cfg).2 = TransformOutcome.ok m) := by
  obtain ⟨hdf, hout⟩ := execHandler_spec h a cfg ha
  rw [hout]
  refine ⟨hdf, ?_, ?_, ?_, ?_⟩
  · intro hemp
    unfold runTransform
    rw [if_pos hemp]
  · intro hne hid
    exact runTransform_error_of_missing _ _ hne
      ⟨cfg.id_col, List.mem_cons_self _ _, hid⟩
  · intro hne hmiss
    obtain ⟨c, hc, hcn⟩ := hmiss
    exact runTransform_error_of_missing _ _ hne ⟨c, List.mem_cons_of_mem _ hc, hcn⟩
  · intro hne hid hvc hvn hvar1 hvar2 hnull
    exact runTransform_ok_of _ _ hne hid hvc hvn hvar1 hvar2 hnull

/-- Counterexample to C6 as stated: a configuration whose `value_cols`
contains the id column (and is otherwise fine) does not fail — the duplicate
label is dropped and the remaining column is melted. -/
theorem C6_counterexample :
    (("data" : String) ∈ (["data", "col1"] : List String)) ∧
    runTransform ⟨[("data", [Value.str "x"]), ("col1", [Value.num 1])]⟩
      ⟨"data", ["data", "col1"], "column", "value", false, false, false⟩
      = TransformOutcome.ok ⟨"data", "column", "value",
          [⟨Value.str "x", "col1", Value.num 1⟩]⟩ := by
  decide

/-- Witness for C6 on one concrete heap and table per leg. -/
theorem C6_validation_witness :
    ((execHandler ⟨[⟨[("data", [Value.str "x"]), ("col1", [Value.num 1])]⟩]⟩ 0
        ⟨"data", [], "column", "value", true, true, true⟩).1.read 0
      = Heap.read ⟨[⟨[("data", [Value.str "x"]), ("col1", [Value.num 1])]⟩]⟩ 0) ∧
    ((execHandler ⟨[⟨[("data", [Value.str "x"]), ("col1", [Value.num 1])]⟩]⟩ 0
        ⟨"data", [], "column", "value", true, true, true⟩).2
      = TransformOutcome.warn "Pick at least one column to unpivot.") ∧
    (∃ msg, (execHandler ⟨[⟨[("data", [Value.str "x"]), ("col1", [Value.num 1])]⟩]⟩ 0
        ⟨"nope", ["col1"], "column", "value", true, true, true⟩).2
      = TransformOutcome.error msg) ∧
    (∃ msg, (execHandler ⟨[⟨[("data", [Value.str "x"]), ("col1", [Value.num 1])]⟩]⟩ 0
        ⟨"data", ["ghost"], "column", "value", true, true, true⟩).2
      = TransformOutcome.error msg) ∧
    (∃ m, (execHandler ⟨[⟨[("data", [Value.str "x"]), ("col1", [Value.num 1])]⟩]⟩ 0
        ⟨"data", ["data", "col1"], "column", "value", true, true, true⟩).2
      = TransformOutcome.ok m) :=
  ⟨(C6_validation _ 0 _ (by decide)).1,
   (C6_validation _ 0 _ (by decide)).2.1 rfl,
   (C6_validation _ 0 _ (by decide)).2.2.1 (by decide) (by decide),
   (C6_validation _ 0 _ (by decide)).2.2.2.1 (by decide) ⟨"ghost", by decide, by decide⟩,
   (C6_validation _ 0 _ (by decide)).2.2.2.2 (by decide) (by decide) (by decide) (by decide)
     (by decide) (by decide) (by decide)⟩
